import Mathlib

/-!
Shallow embedding of the `unraid-cli` repository (Rust) for specification
checking. Pure data and operations are translated from:

* `src/config.rs` — `Config`, `ServerConfig`, `ResolvedConfig::resolve`
* `src/client.rs` — `UnraidClient::process_response`
* `src/commands/docker.rs` — `find_container_id`, `restart_container`,
  `filter_by_state`, `truncate`
* `src/commands/config.rs` — `add_server` (the command handler)

The Rust `HashMap<String, ServerConfig>` is modelled as an association list
with unique keys; only its map semantics (lookup / insert-replace / remove)
are observable in the source. Fallible Rust functions returning
`anyhow::Result` are modelled with `Except`; `&mut self` methods are
modelled as state-passing functions returning the post-state. Filesystem
and network effects are modelled by passing the observed outside world
(file contents, server responses) as explicit arguments.
-/

namespace UnraidCli

/-- Errors raised by the config module (`src/config.rs`). -/
inductive CfgError where
  | notFound (name : String)
  | noServerConfigured
  | ioError (msg : String)
  | parseError (msg : String)
deriving Repr, DecidableEq

/-- `ServerConfig` from `src/config.rs`. -/
structure ServerConfig where
  url : String
  api_key : String
deriving Repr, DecidableEq

/-- `Config` from `src/config.rs`: optional default profile name plus a
name-keyed map of server profiles (modelled as an association list). -/
structure Config where
  default : Option String
  servers : List (String × ServerConfig)
deriving Repr, DecidableEq

/-- `HashMap::contains_key` on the association-list model. -/
def containsKey (servers : List (String × ServerConfig)) (name : String) : Bool :=
  servers.any (fun p => p.1 == name)

/-- `Config::default()` — no default, empty server map. -/
def Config.empty : Config := ⟨none, []⟩

/-- `Config::get_server`: `name.or(self.default.as_deref())` then map lookup. -/
def Config.get_server (c : Config) (name : Option String) : Option ServerConfig :=
  match name.or c.default with
  | none => none
  | some n => c.servers.lookup n

/-- `Config::add_server`: `HashMap::insert` (replace entry with the same key). -/
def Config.add_server (c : Config) (name url api_key : String) : Config :=
  { c with servers := (name, ⟨url, api_key⟩) :: c.servers.filter (fun p => !(p.1 == name)) }

/-- `Config::remove_server`: removes the entry, reports whether one existed,
and clears `default` when it pointed at the removed name. Returns
(removed flag, post-state). -/
def Config.remove_server (c : Config) (name : String) : Bool × Config :=
  let removed := containsKey c.servers name
  let servers := c.servers.filter (fun p => !(p.1 == name))
  let dflt := if c.default = some name then none else c.default
  (removed, { default := dflt, servers := servers })

/-- `Config::set_default`: rejects unknown names, otherwise records the new
default. Returns (result, post-state); on error the state is unchanged,
mirroring the early `bail!` before any mutation. -/
def Config.set_default (c : Config) (name : String) : Except CfgError Unit × Config :=
  if containsKey c.servers name then
    (.ok (), { c with default := some name })
  else
    (.error (.notFound name), c)

/-- The documented invariant: `default`, when present, names an existing
profile. -/
def Config.invariant (c : Config) : Bool :=
  match c.default with
  | none => true
  | some n => containsKey c.servers n

/-- State of the backing config file as seen by `Config::load`:
absent, present but unreadable, or present with contents. -/
inductive FileState where
  | absent
  | unreadable (msg : String)
  | present (content : String)
deriving Repr, DecidableEq

/-- `Config::load` from `src/config.rs`, with the filesystem and the TOML
parser passed in: an absent file yields `Config::default()`; a read failure
yields an IO error; otherwise the parse result (or a parse error) is
returned. -/
def Config.loadFrom (fs : FileState) (parse : String → Except String Config) :
    Except CfgError Config :=
  match fs with
  | .absent => .ok Config.empty
  | .unreadable msg => .error (.ioError msg)
  | .present content =>
    match parse content with
    | .ok c => .ok c
    | .error msg => .error (.parseError msg)

/-- The `UNRAID_URL` / `UNRAID_API_KEY` / `UNRAID_SERVER` environment
variables read by `ResolvedConfig::resolve`. -/
structure Env where
  unraid_url : Option String
  unraid_api_key : Option String
  unraid_server : Option String
deriving Repr, DecidableEq

/-- `ResolvedConfig` from `src/config.rs`. -/
structure ResolvedConfig where
  url : String
  api_key : String
deriving Repr, DecidableEq

/-- `ResolvedConfig::resolve` from `src/config.rs`, with the environment and
the result of `Config::load()` passed in explicitly. Tier (a): both CLI url
and api-key given. Tier (b): both environment url and api-key set. Tier (c):
config-file profile selected by CLI server name, else environment server
name, else the stored default. -/
def ResolvedConfig.resolve (cli_server cli_url cli_api_key : Option String)
    (env : Env) (loadResult : Except CfgError Config) :
    Except CfgError ResolvedConfig :=
  match cli_url, cli_api_key with
  | some url, some api_key => .ok ⟨url, api_key⟩
  | _, _ =>
    match env.unraid_url, env.unraid_api_key with
    | some url, some api_key =>
      .ok ⟨cli_url.getD url, cli_api_key.getD api_key⟩
    | _, _ =>
      match loadResult with
      | .error e => .error e
      | .ok config =>
        let server_name := cli_server.or env.unraid_server
        match config.get_server server_name with
        | some server =>
          .ok ⟨cli_url.getD server.url, cli_api_key.getD server.api_key⟩
        | none => .error .noServerConfigured

/-- Errors raised by the client and docker modules. -/
inductive Err where
  | notFound (name : String)
  | graphQLError (msg : String)
  | noDataError
  | transport (msg : String)
deriving Repr, DecidableEq

/-- One entry of the GraphQL `errors` array. -/
structure GraphQLErrorItem where
  message : String
deriving Repr, DecidableEq

/-- The GraphQL response envelope `{ data?, errors? }`. -/
structure Response (T : Type) where
  data : Option T
  errors : Option (List GraphQLErrorItem)
deriving Repr, DecidableEq

/-- `UnraidClient::process_response` from `src/client.rs`: a present,
non-empty `errors` array fails with the messages joined by ", "; otherwise
a missing `data` fails with the no-data error; otherwise `data` is
returned. -/
def process_response {T : Type} (response : Response T) : Except Err T :=
  if (match response.errors with
      | some errors => !errors.isEmpty
      | none => false) then
    let error_messages :=
      (match response.errors with
       | some errors => errors
       | none => []).map (fun (e : GraphQLErrorItem) => e.message)
    .error (.graphQLError ("GraphQL errors: " ++ String.intercalate ", " error_messages))
  else
    match response.data with
    | some d => .ok d
    | none => .error .noDataError

/-- `ContainerState` generated from the GraphQL schema (variants as used in
`src/commands/docker.rs`). -/
inductive ContainerState where
  | RUNNING
  | PAUSED
  | EXITED
  | Other (s : String)
deriving Repr, DecidableEq

/-- `Container` (`GetDockerContainersDockerContainers`) as constructed in
`src/commands/docker.rs`. -/
structure Container where
  id : String
  names : List String
  image : String
  state : ContainerState
  status : String
  ports : List Int
deriving Repr, DecidableEq

/-- Rust `str::to_lowercase`, character-wise. -/
def toLowerStr (s : String) : String := ⟨s.data.map Char.toLower⟩

/-- Rust `str::trim_start_matches('/')`: drop every leading slash. -/
def trimStartSlash (s : String) : String := ⟨s.data.dropWhile (fun c => c == '/')⟩

/-- One alias comparison from `find_container_id`: strip leading slashes,
lowercase, compare with the lowercased input. -/
def aliasMatches (a input_lower : String) : Bool :=
  toLowerStr (trimStartSlash a) == input_lower

/-- `find_container_id` from `src/commands/docker.rs`: scan containers in
list order, return the id of the first one with a matching alias, else a
not-found error naming the input. -/
def find_container_id : List Container → String → Except Err String
  | [], name => .error (.notFound name)
  | c :: rest, name =>
    if c.names.any (fun a => aliasMatches a (toLowerStr name)) then
      .ok c.id
    else
      find_container_id rest name

/-- A mutation issued against the server, for observing the request
sequence of the docker commands. -/
inductive Mutation where
  | stop (id : String)
  | start (id : String)
deriving Repr, DecidableEq

/-- The observable behaviour of the remote server for one docker command:
the container-list query result and the per-id results of the stop and
start mutations. -/
structure DockerClient where
  containers : Except Err (List Container)
  stopFn : String → Except Err Container
  startFn : String → Except Err Container

/-- `resolve_container_id` from `src/commands/docker.rs`: query all
containers, then `find_container_id`. -/
def resolve_container_id (client : DockerClient) (name : String) :
    Except Err String :=
  match client.containers with
  | .error e => .error e
  | .ok cs => find_container_id cs name

/-- `restart_container` from `src/commands/docker.rs`: resolve the id once,
issue stop, then issue start with the same id; each failure aborts the
sequence. The returned list records the mutations actually issued, in
order. -/
def restart_container (client : DockerClient) (name : String) :
    Except Err ContainerState × List Mutation :=
  match resolve_container_id client name with
  | .error e => (.error e, [])
  | .ok id =>
    match client.stopFn id with
    | .error e => (.error e, [.stop id])
    | .ok _ =>
      match client.startFn id with
      | .error e => (.error e, [.stop id, .start id])
      | .ok container => (.ok container.state, [.stop id, .start id])

/-- `filter_by_state` from `src/commands/docker.rs`. -/
def filter_by_state (containers : List Container) (show_all : Bool) :
    List Container :=
  if show_all then containers
  else containers.filter (fun c => c.state == ContainerState.RUNNING)

/-- `truncate` from `src/commands/docker.rs`. `none` models the Rust panic:
for `max_len < 3` and an over-long input, `max_len - 3` underflows (debug:
subtract-with-overflow panic; release: wraps and the slice index is out of
bounds). -/
def truncate (s : String) (max_len : Nat) : Option String :=
  if s.length ≤ max_len then some s
  else if max_len < 3 then none
  else some (⟨s.data.take (max_len - 3)⟩ ++ "...")

/-- `add_server` command handler from `src/commands/config.rs` (the pure
state transition between load and save): upsert the profile and make it the
default when the store was previously empty. -/
def add_server_cmd (c : Config) (name url api_key : String) : Config :=
  let is_first := c.servers.isEmpty
  let c' := c.add_server name url api_key
  if is_first then { c' with default := some name } else c'

/-- A sample config used to instantiate hypotheses at concrete values
(mirrors `sample_config` in the repository's tests). -/
def sampleConfig : Config :=
  ⟨some "tower",
   [("tower", ⟨"https://192.168.1.100", "key-tower"⟩),
    ("backup", ⟨"https://192.168.1.101", "key-backup"⟩)]⟩

theorem containsKey_cons (p : String × ServerConfig)
    (l : List (String × ServerConfig)) (n : String) :
    containsKey (p :: l) n = (p.1 == n || containsKey l n) := by
  simp [containsKey]

theorem containsKey_filter_out (l : List (String × ServerConfig)) (n name : String) :
    containsKey (l.filter (fun p => !(p.1 == name))) n =
      if n = name then false else containsKey l n := by
  induction l with
  | nil => simp [containsKey]
  | cons p l ih =>
    by_cases hp : p.1 = name
    · rw [List.filter_cons, if_neg (by simp [hp]), ih]
      by_cases hn : n = name
      · simp [hn]
      · rw [if_neg hn, if_neg hn, containsKey_cons, hp]
        have : (name == n) = false := by simp [Ne.symm hn]
        simp [this]
    · rw [List.filter_cons, if_pos (by simp [hp]), containsKey_cons, containsKey_cons, ih]
      by_cases hn : n = name
      · subst hn
        have : (p.1 == n) = false := by simp [hp]
        simp [this]
      · simp [hn]

theorem lookup_filter_out (l : List (String × ServerConfig)) (n name : String) :
    (l.filter (fun p => !(p.1 == name))).lookup n =
      if n = name then none else l.lookup n := by
  induction l with
  | nil => simp
  | cons p l ih =>
    obtain ⟨k, v⟩ := p
    by_cases hk : k = name
    · subst hk
      rw [List.filter_cons, if_neg (by simp), ih]
      by_cases hn : n = k
      · simp [hn]
      · rw [if_neg hn, if_neg hn, List.lookup_cons]
        have : (n == k) = false := by simp [hn]
        simp [this]
    · rw [List.filter_cons, if_pos (by simp [hk])]
      by_cases hn : n = k
      · subst hn
        rw [List.lookup_cons, List.lookup_cons, if_neg (fun h => hk h)]
        simp
      · rw [List.lookup_cons, List.lookup_cons]
        have hb : (n == k) = false := by simp [hn]
        simp [hb, ih]

/-- C5: the invariant "a present `default` names an existing profile" is
preserved by `add_server`, by `remove_server` (which clears the default
when its profile is removed), and by a successful `set_default`; and
`set_default` rejects names absent from the map. -/
theorem config_ops_preserve_default_invariant (c : Config)
    (name url api_key : String) (h : c.invariant = true) :
    (c.add_server name url api_key).invariant = true ∧
    ((c.remove_server name).2).invariant = true ∧
    (∀ u, (c.set_default name).1 = .ok u →
      ((c.set_default name).2).invariant = true) ∧
    (containsKey c.servers name = false →
      (c.set_default name).1 = .error (.notFound name)) := by
  refine ⟨?_, ?_, ?_, ?_⟩
  · cases hd : c.default with
    | none => simp [Config.add_server, Config.invariant, hd]
    | some nd =>
      have hc : containsKey c.servers nd = true := by
        simpa [Config.invariant, hd] using h
      have key : containsKey
          ((name, ServerConfig.mk url api_key) ::
            c.servers.filter (fun p => !(p.1 == name))) nd = true := by
        rw [containsKey_cons, containsKey_filter_out]
        by_cases hn : nd = name
        · simp [hn]
        · simp [hn, hc]
      simpa [Config.add_server, Config.invariant, hd] using key
  · cases hd : c.default with
    | none => simp [Config.remove_server, Config.invariant, hd]
    | some nd =>
      have hc : containsKey c.servers nd = true := by
        simpa [Config.invariant, hd] using h
      by_cases hn : nd = name
      · simp [Config.remove_server, Config.invariant, hd, hn]
      · have key := containsKey_filter_out c.servers nd name
        rw [if_neg hn] at key
        simp [Config.remove_server, Config.invariant, hd, hn, key, hc]
  · intro u hu
    by_cases hk : containsKey c.servers name = true
    · simp [Config.set_default, Config.invariant, hk]
    · simp [Config.set_default, hk] at hu
  · intro hk
    simp [Config.set_default, hk]

/-- Witness for C5 at `sampleConfig`. -/
theorem config_ops_preserve_default_invariant_witness :
    sampleConfig.invariant = true ∧
    ((sampleConfig.add_server "new" "u" "k").invariant = true ∧
     ((sampleConfig.remove_server "tower").2).invariant = true ∧
     (∀ u, (sampleConfig.set_default "new").1 = .ok u →
       ((sampleConfig.set_default "new").2).invariant = true) ∧
     (containsKey sampleConfig.servers "new" = false →
       (sampleConfig.set_default "new").1 = .error (.notFound "new"))) :=
  ⟨by decide,
   (config_ops_preserve_default_invariant sampleConfig "new" "u" "k" (by decide)).1,
   (config_ops_preserve_default_invariant sampleConfig "tower" "u" "k" (by decide)).2.1,
   (config_ops_preserve_default_invariant sampleConfig "new" "u" "k" (by decide)).2.2.1,
   (config_ops_preserve_default_invariant sampleConfig "new" "u" "k" (by decide)).2.2.2⟩

/-- C6: `set_default` on a name absent from the server map fails with the
not-found error and leaves the whole config unchanged; on a present name it
records that name as the default and touches nothing else. -/
theorem set_default_spec (c : Config) (name : String) :
    (containsKey c.servers name = false →
      c.set_default name = (.error (.notFound name), c)) ∧
    (containsKey c.servers name = true →
      c.set_default name = (.ok (), { c with default := some name })) := by
  constructor
  · intro hk
    simp [Config.set_default, hk]
  · intro hk
    simp [Config.set_default, hk]

/-- Witness for C6 at `sampleConfig` with an absent and a present name. -/
theorem set_default_spec_witness :
    (containsKey sampleConfig.servers "nope" = false ∧
      sampleConfig.set_default "nope" = (.error (.notFound "nope"), sampleConfig)) ∧
    (containsKey sampleConfig.servers "backup" = true ∧
      sampleConfig.set_default "backup" =
        (.ok (), { sampleConfig with default := some "backup" })) :=
  ⟨⟨by decide, (set_default_spec sampleConfig "nope").1 (by decide)⟩,
   ⟨by decide, (set_default_spec sampleConfig "backup").2 (by decide)⟩⟩

/-- C7: `remove_server` reports `true` exactly when the named profile
existed; afterwards that profile is gone and every other profile is
unchanged; the default is cleared exactly when it named the removed
profile. -/
theorem remove_server_spec (c : Config) (name : String) :
    (c.remove_server name).1 = containsKey c.servers name ∧
    (∀ n, ((c.remove_server name).2).servers.lookup n =
      if n = name then none else c.servers.lookup n) ∧
    ((c.remove_server name).2).default =
      (if c.default = some name then none else c.default) := by
  refine ⟨rfl, ?_, rfl⟩
  intro n
  simpa [Config.remove_server] using lookup_filter_out c.servers n name

/-- C8: `load` yields the empty config, without error, exactly when the
backing file is absent; every error it can return comes from a present file
that is unreadable (IO error) or unparsable (parse error). -/
theorem load_spec (fs : FileState) (parse : String → Except String Config) :
    (fs = .absent →
      Config.loadFrom fs parse = .ok Config.empty ∧ Config.empty = ⟨none, []⟩) ∧
    (∀ e, Config.loadFrom fs parse = .error e →
      (∃ m, fs = .unreadable m ∧ e = .ioError m) ∨
      (∃ content m, fs = .present content ∧ parse content = .error m ∧
        e = .parseError m)) := by
  constructor
  · intro hfs
    subst hfs
    exact ⟨rfl, rfl⟩
  · intro e he
    cases fs with
    | absent => simp [Config.loadFrom] at he
    | unreadable m =>
      left
      refine ⟨m, rfl, ?_⟩
      simpa [Config.loadFrom] using he.symm
    | present content =>
      right
      refine ⟨content, ?_⟩
      cases hp : parse content with
      | ok cfg => simp [Config.loadFrom, hp] at he
      | error m =>
        refine ⟨m, rfl, rfl, ?_⟩
        simp [Config.loadFrom, hp] at he
        exact he.symm

/-- Witness for C8: an absent file loads as the empty config even under a
parser that always fails. -/
theorem load_spec_witness :
    Config.loadFrom .absent (fun s => .error s) = .ok Config.empty ∧
      Config.empty = ⟨none, []⟩ :=
  (load_spec .absent (fun s => .error s)).1 rfl

/-- C9 counterexample: the claim quantifies over every width limit, but for
a limit below the ellipsis width the code panics on an over-long input
(`max_len - 3` underflows) instead of producing a string of that total
length. -/
theorem truncate_below_ellipsis_counterexample :
    2 < ("hello" : String).length ∧ truncate "hello" 2 = none := by
  constructor
  · decide
  · rfl

/-- C9 (amended with the width bound the counterexample forces): for limits
of at least the ellipsis width 3, inputs at or below the limit are returned
unchanged, and longer inputs become their first `n - 3` characters followed
by "...", of total length exactly `n`. -/
theorem truncate_spec (s : String) (n : Nat) (h : 3 ≤ n) :
    (s.length ≤ n → truncate s n = some s) ∧
    (n < s.length →
      truncate s n = some (String.mk (s.data.take (n - 3)) ++ "...") ∧
      (String.mk (s.data.take (n - 3)) ++ "...").length = n) := by
  constructor
  · intro hle
    simp [truncate, hle]
  · intro hlt
    have hle : ¬ s.length ≤ n := Nat.not_le.mpr hlt
    have h3 : ¬ n < 3 := Nat.not_lt.mpr h
    refine ⟨by simp [truncate, hle, h3], ?_⟩
    have hsd : s.length = s.data.length := rfl
    have htake : (s.data.take (n - 3)).length = n - 3 := by
      rw [List.length_take]
      omega
    rw [String.length_append, String.length_mk, htake]
    have hdots : ("..." : String).length = 3 := rfl
    rw [hdots]
    omega

/-- Witness for C9 at the spec's own example: a 20-character input with
limit 8 becomes its first 5 characters plus "...", of total length 8. -/
theorem truncate_spec_witness :
    (("aaaaabbbbbcccccddddd" : String).length ≤ 8 →
      truncate "aaaaabbbbbcccccddddd" 8 = some "aaaaabbbbbcccccddddd") ∧
    (8 < ("aaaaabbbbbcccccddddd" : String).length →
      truncate "aaaaabbbbbcccccddddd" 8 =
        some (String.mk (("aaaaabbbbbcccccddddd" : String).data.take 5) ++ "...") ∧
      (String.mk (("aaaaabbbbbcccccddddd" : String).data.take 5) ++ "...").length = 8) :=
  truncate_spec "aaaaabbbbbcccccddddd" 8 (by decide)

/-- C2: `find_container_id` returns the id of the first container, in list
order, with an alias equal (case-insensitively, after stripping leading
slashes) to the input, and otherwise — in particular on the empty list —
fails with a not-found error naming the input. -/
theorem find_container_id_spec (containers : List Container) (name : String) :
    find_container_id containers name =
      match containers.find?
          (fun c => c.names.any (fun a => aliasMatches a (toLowerStr name))) with
      | some c => .ok c.id
      | none => .error (.notFound name) := by
  induction containers with
  | nil => rfl
  | cons c rest ih =>
    by_cases hc : c.names.any (fun a => aliasMatches a (toLowerStr name)) = true
    · simp [find_container_id, List.find?_cons, hc]
    · simp only [Bool.not_eq_true] at hc
      simp [find_container_id, List.find?_cons, hc, ih]

/-- C3: a present, non-empty `errors` array yields the GraphQL error with
all messages joined by ", " (even when `data` is present); otherwise a
missing `data` yields the no-data error and a present `data` is returned. -/
theorem process_response_spec {T : Type} (r : Response T) :
    (∀ es, r.errors = some es → es ≠ [] →
      process_response r = .error (.graphQLError
        ("GraphQL errors: " ++
          String.intercalate ", " (es.map (fun e => e.message))))) ∧
    ((r.errors = none ∨ r.errors = some []) →
      (r.data = none → process_response r = .error .noDataError) ∧
      (∀ d, r.data = some d → process_response r = .ok d)) := by
  constructor
  · intro es hes hne
    have h1 : es.isEmpty = false := by
      cases es with
      | nil => exact absurd rfl hne
      | cons a l => rfl
    simp [process_response, hes, h1]
  · intro herr
    have hcond : (match r.errors with
        | some errors => !errors.isEmpty
        | none => false) = false := by
      rcases herr with h | h <;> simp [h]
    constructor
    · intro hd
      simp [process_response, hcond, hd]
    · intro d hd
      simp [process_response, hcond, hd]

/-- Witness for C3 on the spec's envelope examples. -/
theorem process_response_spec_witness :
    process_response { data := some "x", errors := some [⟨"a"⟩, ⟨"b"⟩] } =
      .error (.graphQLError ("GraphQL errors: " ++ String.intercalate ", "
        ([GraphQLErrorItem.mk "a", GraphQLErrorItem.mk "b"].map
          (fun e => e.message)))) ∧
    process_response { data := some "x", errors := some ([] : List GraphQLErrorItem) } =
      .ok "x" ∧
    process_response ({ data := none, errors := none } : Response String) =
      .error .noDataError :=
  ⟨(process_response_spec (Response.mk (some "x") (some [⟨"a"⟩, ⟨"b"⟩]))).1
      [⟨"a"⟩, ⟨"b"⟩] rfl (by decide),
   ((process_response_spec (Response.mk (some "x")
        (some ([] : List GraphQLErrorItem)))).2 (Or.inr rfl)).2 "x" rfl,
   ((process_response_spec (Response.mk (none : Option String) none)).2
      (Or.inl rfl)).1 rfl⟩

/-- C4: once the name resolves to an id, `restart_container` issues the
stop mutation and then the start mutation with that same id, in order; a
stop failure prevents the start; when stop succeeds and start fails,
exactly those two mutations were issued and the start failure is the
result — no rollback or retry. -/
theorem restart_container_spec (client : DockerClient) (name id : String)
    (hres : resolve_container_id client name = .ok id) :
    (∀ e, client.stopFn id = .error e →
      restart_container client name = (.error e, [.stop id])) ∧
    (∀ c, client.stopFn id = .ok c →
      (∀ e, client.startFn id = .error e →
        restart_container client name = (.error e, [.stop id, .start id])) ∧
      (∀ c2, client.startFn id = .ok c2 →
        restart_container client name =
          (.ok c2.state, [.stop id, .start id]))) := by
  constructor
  · intro e he
    simp [restart_container, hres, he]
  · intro c hc
    constructor
    · intro e he
      simp [restart_container, hres, hc, he]
    · intro c2 hc2
      simp [restart_container, hres, hc, hc2]

/-- A concrete container for exercising the docker operations. -/
def witnessContainer : Container :=
  ⟨"id-1", ["plex"], "some-image:latest", .RUNNING, "Up 2 hours", []⟩

/-- A concrete client whose stop mutation succeeds and whose start mutation
fails. -/
def witnessClient : DockerClient :=
  ⟨.ok [witnessContainer],
   fun _ => .ok witnessContainer,
   fun _ => .error (.graphQLError "GraphQL errors: boom")⟩

/-- Witness for C4: stop succeeded, start failed — the stop and start
mutations were issued with the same resolved id, and the start failure is
surfaced. -/
theorem restart_container_spec_witness :
    restart_container witnessClient "plex" =
      (.error (.graphQLError "GraphQL errors: boom"),
       [.stop "id-1", .start "id-1"]) :=
  (((restart_container_spec witnessClient "plex" "id-1" rfl).2
      witnessContainer rfl).1 (.graphQLError "GraphQL errors: boom") rfl)

/-- C10: the config-add command makes the newly added profile the default
exactly when the store held no profiles; with at least one existing
profile, the stored default is left unchanged. -/
theorem add_server_cmd_default_spec (c : Config) (name url api_key : String) :
    (c.servers = [] → (add_server_cmd c name url api_key).default = some name) ∧
    (c.servers ≠ [] → (add_server_cmd c name url api_key).default = c.default) := by
  constructor
  · intro hs
    simp [add_server_cmd, Config.add_server, hs]
  · intro hs
    have hne : c.servers.isEmpty = false := by
      cases h : c.servers with
      | nil => exact absurd h hs
      | cons a l => simp [h]
    simp [add_server_cmd, Config.add_server, hne]

/-- Witness for C10: adding to the empty store sets the default; adding to
`sampleConfig` keeps its default. -/
theorem add_server_cmd_default_witness :
    (add_server_cmd Config.empty "tower" "u" "k").default = some "tower" ∧
    (add_server_cmd sampleConfig "new" "u" "k").default = sampleConfig.default :=
  ⟨(add_server_cmd_default_spec Config.empty "tower" "u" "k").1 rfl,
   (add_server_cmd_default_spec sampleConfig "new" "u" "k").2 (by decide)⟩

/-- C1: three-tier resolution. (a) Both CLI url and api-key given: they are
returned verbatim, for every environment and load result. (b) Otherwise,
both environment url and api-key set: they are returned with an
individually-given CLI value overriding just its field, independent of the
load result. (c) Otherwise, from a successfully loaded config, the profile
named by the CLI server name, else the environment server name, else the
stored default is used, again with per-field CLI overrides. -/
theorem resolve_spec (cli_server cli_url cli_api_key : Option String)
    (env : Env) (loadResult : Except CfgError Config) :
    (∀ u k, cli_url = some u → cli_api_key = some k →
      ResolvedConfig.resolve cli_server cli_url cli_api_key env loadResult =
        .ok ⟨u, k⟩) ∧
    ((cli_url = none ∨ cli_api_key = none) →
      ∀ eu ek, env.unraid_url = some eu → env.unraid_api_key = some ek →
        ResolvedConfig.resolve cli_server cli_url cli_api_key env loadResult =
          .ok ⟨cli_url.getD eu, cli_api_key.getD ek⟩) ∧
    ((cli_url = none ∨ cli_api_key = none) →
      (env.unraid_url = none ∨ env.unraid_api_key = none) →
      ∀ config, loadResult = .ok config →
        ∀ sname server,
          (cli_server.or env.unraid_server).or config.default = some sname →
          config.servers.lookup sname = some server →
          ResolvedConfig.resolve cli_server cli_url cli_api_key env loadResult =
            .ok ⟨cli_url.getD server.url, cli_api_key.getD server.api_key⟩) := by
  refine ⟨?_, ?_, ?_⟩
  · intro u k hu hk
    subst hu
    subst hk
    simp [ResolvedConfig.resolve]
  · intro h1 eu ek heu hek
    rcases h1 with h1 | h1 <;>
      cases hcu : cli_url <;> cases hck : cli_api_key <;>
      simp_all [ResolvedConfig.resolve]
  · intro h1 h2 config hload sname server hsn hlook
    subst hload
    have hgs : config.get_server (cli_server.or env.unraid_server) = some server := by
      simp only [Config.get_server]
      rw [hsn]
      simpa using hlook
    clear hsn hlook
    rcases h1 with h1 | h1 <;> rcases h2 with h2 | h2 <;>
      cases hcu : cli_url <;> cases hck : cli_api_key <;>
      cases heu : env.unraid_url <;> cases hek : env.unraid_api_key <;>
      simp_all [ResolvedConfig.resolve]

/-- Witness for C1, tier (c): a lone CLI url overrides the url of the
stored default profile while its api-key is kept. -/
theorem resolve_spec_witness :
    ResolvedConfig.resolve none (some "https://cli") none
      ⟨none, none, none⟩ (.ok sampleConfig) =
      .ok ⟨(some "https://cli").getD "https://192.168.1.100",
           (none : Option String).getD "key-tower"⟩ :=
  (resolve_spec none (some "https://cli") none ⟨none, none, none⟩
      (.ok sampleConfig)).2.2 (Or.inr rfl) (Or.inl rfl) sampleConfig rfl
    "tower" ⟨"https://192.168.1.100", "key-tower"⟩ rfl rfl

end UnraidCli
